import Mathlib

/-!
Verification of the access-loss consistency engine of the ukelio-site
repository (src/utils/song-copy-helpers.js, src/utils/group-management.js,
src/db/mutations.js, src/utils/notifications.js).

Shallow embedding conventions:
* JS string-or-nullish values are embedded as `String`, with `""` standing for
  `null`/`undefined`; JS truthiness of such a value is `≠ ""`.  Every use of
  these fields in the embedded code is either a truthiness test or a pass-
  through, so the collapse is behaviour-preserving.
* JS object references that the code tests for truthiness (`songbookSong.song`,
  the `song` argument, nullable array arguments) are embedded as `Option _`.
* `db.transact(...)` commits a write immediately.  Functions that call it are
  embedded so that, besides their JS return value, the entry points also record
  the list of writes committed during the call (field `committed`).  A bare
  `db.tx...update(...)` builder (as produced by `prepareSongbookEntryUpdates`)
  is a pending `Mutation` value and is not recorded as committed.
* Fresh ids produced by InstantDB's `id()` and wall-clock fields
  (`createdAt`/`updatedAt`) are outside the embedding; a copy-creation
  mutation is represented by the field values the code writes.
-/

namespace Ukelio

/-- JS whitespace test used by `trim` (ASCII whitespace; the further Unicode
whitespace of the JS definition is irrelevant to the embedded data). -/
def isJsWhitespace (c : Char) : Bool :=
  c == ' ' || c == '\t' || c == '\n' || c == '\r'

/-- JS `String.prototype.trim`. -/
def jsTrim (s : String) : String :=
  ⟨((s.data.dropWhile isJsWhitespace).reverse.dropWhile isJsWhitespace).reverse⟩

/-- JS `a || b` on a string-or-nullish value (`""` encodes `null`/`undefined`). -/
def jsOr (a b : String) : String :=
  if a == "" then b else a

/-- A song object as passed around by the embedded code.  `artist`, `chords`
and `parentSongId` may be JS-null (encoded `""`). -/
structure Song where
  id : String
  title : String
  artist : String
  lyrics : String
  chords : String
  parentSongId : String
deriving DecidableEq

/-- A songbook entry (`songbookSongs` row): its own id, the denormalized
`songId` field, and the resolved `song` relation (JS-nullable). -/
structure SongbookSong where
  id : String
  songId : String
  song : Option Song
deriving DecidableEq

/-- A songbook with its entries pre-loaded.  `songbookSongs` is JS-nullable
(the code reads `songbook.songbookSongs || []`).  The `type` field
("private" / "group") is carried by the data but never read by the embedded
functions. -/
structure Songbook where
  id : String
  type : String
  songbookSongs : Option (List SongbookSong)
deriving DecidableEq

/-- One element of the `groupSongs` argument of `handleUserLeavingGroup`
(a songShare with its `song` relation, JS-nullable). -/
structure GroupSongShare where
  song : Option Song
deriving DecidableEq

/-- The fields handed to `createSong` / written to the new `songs` row
(timestamps omitted, see the header). -/
structure SongFields where
  title : String
  artist : String
  lyrics : String
  chords : String
  createdBy : String
  parentSongId : String
deriving DecidableEq

/-- A single store mutation appearing in a plan or committed by the code. -/
inductive Mutation where
  | createSongM : SongFields → Mutation
  | updateEntryM : String → String → Mutation
  | deleteMembershipM : String → Mutation
  | deleteShareM : String → Mutation
deriving DecidableEq

/-- The pending-notification spec objects returned in `notifications`. -/
structure NotificationSpec where
  type : String
  songbookId : String
  count : Nat
  userId : String
deriving DecidableEq

/-- A notification row as written by `createCopiedSongsNotifications`
(timestamp omitted). -/
structure NotificationRecord where
  userId : String
  type : String
  message : String
  songbookId : String
  count : Nat
  read : Bool
deriving DecidableEq

/-- An element of the `copiedSongs` array built by
`copySongsForPrivateSongbooks`.  `copySongId` is JS-null (`""`) for a fresh
copy, whose id is only known after the transaction completes. -/
structure CopiedSong where
  originalSongId : String
  copySongId : String
  songbookId : String
  alreadyExisted : Bool
deriving DecidableEq

/-- A tuple produced by `findSongsToCopyForPrivateSongbooks`, one per
occurrence of an inaccessible song in a private songbook. -/
structure ScanTuple where
  songbookId : String
  songId : String
  songbookSongId : String
  originalSong : Song
deriving DecidableEq

/-- `createSong` from src/db/mutations.js.  It calls `db.transact` on a new
`songs` row; the row's fields are computed here.  The JS
`chords && typeof chords === 'string' && chords.trim() !== ''` test collapses
to `jsTrim chords ≠ ""` (a nullish `chords` is encoded `""`, whose trim is
`""`); `parentSongId || null` is the identity under the `""` encoding. -/
def createSong (songData : SongFields) : Mutation :=
  Mutation.createSongM
    { title := jsTrim songData.title
      artist := jsTrim songData.artist
      lyrics := songData.lyrics
      chords := if jsTrim songData.chords == "" then "[]" else songData.chords
      createdBy := songData.createdBy
      parentSongId := songData.parentSongId }

/-- `deleteGroupMembership` from src/db/mutations.js (a `db.transact` call). -/
def deleteGroupMembership (membershipId : String) : Mutation :=
  Mutation.deleteMembershipM membershipId

/-- `deleteSongShare` from src/db/mutations.js (a `db.transact` call). -/
def deleteSongShare (shareId : String) : Mutation :=
  Mutation.deleteShareM shareId

/-- `removeSongFromGroup` from src/db/mutations.js. -/
def removeSongFromGroup (shareId : String) : Mutation :=
  deleteSongShare shareId

/-- `copySongForUser` from song-copy-helpers.js.  The JS guard
`!originalSong || !userId` cannot fire at the embedded call sites (the scanner
only yields resolved songs and the caller guards `userId`). -/
def copySongForUser (originalSong : Song) (userId : String) : Mutation :=
  createSong
    { title := originalSong.title
      artist := jsOr originalSong.artist ""
      lyrics := originalSong.lyrics
      chords := jsOr originalSong.chords "[]"
      createdBy := userId
      parentSongId := originalSong.id }

/-- `findSongsToCopyForPrivateSongbooks` from song-copy-helpers.js.  The JS
null guards on the two array arguments cannot fire at the embedded call sites
(the entry points guard `privateSongbooks` and always build `songIds` with
`map`). -/
def findSongsToCopyForPrivateSongbooks (privateSongbooks : List Songbook)
    (songIds : List String) : List ScanTuple :=
  if songIds.isEmpty then []
  else
    privateSongbooks.flatMap fun songbook =>
      (songbook.songbookSongs.getD []).filterMap fun songbookSong =>
        match songbookSong.song with
        | some s =>
          if songIds.contains songbookSong.songId then
            some { songbookId := songbook.id
                   songId := songbookSong.songId
                   songbookSongId := songbookSong.id
                   originalSong := s }
          else none
        | none => none

/-- The `existingCopyMap` lookup of `copySongsForPrivateSongbooks`:
`new Map(existingCopies.map(c => [c.parentSongId, c])).get(songId)` —
for duplicate keys the later array element wins. -/
def lookupExistingCopy (existingCopies : List Song) (songId : String) :
    Option Song :=
  (existingCopies.filter fun c => c.parentSongId == songId).getLast?

/-- The per-occurrence loop body of `copySongsForPrivateSongbooks`: returns
(`copiedSongs`, copy `transactions`) in loop order.  The `!originalSong`
`continue` cannot fire (the scanner only yields resolved songs). -/
def copyLoop (userId : String) (existingCopies : List Song) :
    List ScanTuple → List CopiedSong × List Mutation
  | [] => ([], [])
  | t :: rest =>
    let r := copyLoop userId existingCopies rest
    match lookupExistingCopy existingCopies t.songId with
    | some existingCopy =>
      (⟨t.songId, existingCopy.id, t.songbookId, true⟩ :: r.1, r.2)
    | none =>
      (⟨t.songId, "", t.songbookId, false⟩ :: r.1,
       copySongForUser t.originalSong userId :: r.2)

/-- `songbookAffectedCount.set(k, (get(k) || 0) + 1)` on the insertion-ordered
map, embedded as an ordered association list. -/
def bumpCount : List (String × Nat) → String → List (String × Nat)
  | [], k => [(k, 1)]
  | p :: rest, k =>
    if p.1 == k then (p.1, p.2 + 1) :: rest else p :: bumpCount rest k

/-- The `songbookAffectedCount` map after the loop, in insertion order. -/
def songbookCounts (tuples : List ScanTuple) : List (String × Nat) :=
  tuples.foldl (fun acc t => bumpCount acc t.songbookId) []

/-- Return value of `copySongsForPrivateSongbooks`. -/
structure CopyResult where
  copiedSongs : List CopiedSong
  notifications : List NotificationSpec
  transactions : List Mutation
deriving DecidableEq

/-- `copySongsForPrivateSongbooks` from song-copy-helpers.js.  Every element
of `transactions` is a `createSong` call, i.e. a write committed (via
`db.transact`) while this function runs.  The JS null guards on the array
arguments cannot fire at the embedded call sites. -/
def copySongsForPrivateSongbooks (userId : String)
    (privateSongbooks : List Songbook) (originalSongs : List Song)
    (existingCopies : List Song) : CopyResult :=
  if userId == "" || originalSongs.isEmpty then ⟨[], [], []⟩
  else
    let songIds := originalSongs.map fun s => s.id
    let songsToCopy := findSongsToCopyForPrivateSongbooks privateSongbooks songIds
    if songsToCopy.isEmpty then ⟨[], [], []⟩
    else
      let r := copyLoop userId existingCopies songsToCopy
      ⟨r.1,
       (songbookCounts songsToCopy).map fun p =>
         { type := "songs_copied", songbookId := p.1, count := p.2,
           userId := userId },
       r.2⟩

/-- `new Map(copiedSongs.filter(cs => cs.copySongId).map(cs =>
[cs.originalSongId, cs.copySongId]))`, kept as the underlying pair list. -/
def copyMapOf (copiedSongs : List CopiedSong) : List (String × String) :=
  (copiedSongs.filter fun cs => cs.copySongId ≠ "").map fun cs =>
    (cs.originalSongId, cs.copySongId)

/-- `Map.get` on the pair list (later entries win, as in the `Map`
constructor). -/
def mapGet (m : List (String × String)) (k : String) : Option String :=
  ((m.filter fun p => p.1 == k).getLast?).map fun p => p.2

/-- `Map.has` on the pair list. -/
def mapHas (m : List (String × String)) (k : String) : Bool :=
  (mapGet m k).isSome

/-- `prepareSongbookEntryUpdates` from song-copy-helpers.js (the `db`
argument only supplies the transaction-builder namespace and is dropped).
The produced mutations are pending builders: the function does not call
`db.transact`. -/
def prepareSongbookEntryUpdates (songbookSongs : List SongbookSong)
    (copyMap : List (String × String)) : List Mutation :=
  songbookSongs.filterMap fun ss =>
    match mapGet copyMap ss.songId with
    | some newSongId =>
      if newSongId ≠ "" && ss.id ≠ "" then
        some (Mutation.updateEntryM ss.id newSongId)
      else none
    | none => none

/-- Return value of `handleUserLeavingGroup`, together with the effect log:
`committed` lists the `db.transact` calls issued while the function ran, in
order. -/
structure LeaveResult where
  transactions : List Mutation
  notifications : List NotificationSpec
  committed : List Mutation
deriving DecidableEq

/-- `handleUserLeavingGroup` from group-management.js. -/
def handleUserLeavingGroup (userId groupId membershipId : String)
    (privateSongbooks : Option (List Songbook))
    (groupSongs : Option (List GroupSongShare))
    (existingCopies : List Song) : LeaveResult :=
  if userId == "" || groupId == "" || privateSongbooks.isNone
      || groupSongs.isNone then ⟨[], [], []⟩
  else
    let pbs := privateSongbooks.getD []
    let gss := groupSongs.getD []
    let groupSongIds :=
      ((gss.filterMap fun ss => ss.song).map fun s => s.id).filter fun i => i ≠ ""
    let groupSongObjects := gss.filterMap fun ss => ss.song
    if groupSongIds.isEmpty then
      let del :=
        if membershipId ≠ "" then [deleteGroupMembership membershipId] else []
      ⟨del, [], del⟩
    else
      let r := copySongsForPrivateSongbooks userId pbs groupSongObjects
        existingCopies
      let copyMap := copyMapOf r.copiedSongs
      let songbookSongsToUpdate := pbs.flatMap fun songbook =>
        (songbook.songbookSongs.getD []).filter fun ss =>
          match ss.song with
          | some s => groupSongIds.contains s.id && mapHas copyMap s.id
          | none => false
      let updateTransactions :=
        prepareSongbookEntryUpdates songbookSongsToUpdate copyMap
      let del :=
        if membershipId ≠ "" then [deleteGroupMembership membershipId] else []
      ⟨r.transactions ++ updateTransactions ++ del, r.notifications,
       r.transactions ++ del⟩

/-- An element of the `affectedUsers` argument of
`handleSongRemovedFromGroup` (with the `existingCopies = []` default applied
by the destructuring). -/
structure AffectedUser where
  userId : String
  privateSongbooks : List Songbook
  existingCopies : List Song
deriving DecidableEq

/-- `Map.set` on an ordered association list: an existing key keeps its
position and gets the new value, a new key is appended. -/
def mapSet {α : Type} (m : List (String × α)) (k : String) (v : α) :
    List (String × α) :=
  if m.any fun p => p.1 == k then
    m.map fun p => if p.1 == k then (k, v) else p
  else m ++ [(k, v)]

/-- Return value of `handleSongRemovedFromGroup` (`userNotifications` is the
insertion-ordered map), together with the `committed` effect log. -/
structure RemoveResult where
  transactions : List Mutation
  userNotifications : List (String × List NotificationSpec)
  committed : List Mutation
deriving DecidableEq

/-- The per-user body of the `affectedUsers` loop of
`handleSongRemovedFromGroup`: (transactions pushed, notifications for the
map, writes committed). -/
def processAffectedUser (song : Song) (u : AffectedUser) :
    List Mutation × List NotificationSpec × List Mutation :=
  let r := copySongsForPrivateSongbooks u.userId u.privateSongbooks [song]
    u.existingCopies
  let copyMap := copyMapOf r.copiedSongs
  let songbookSongsToUpdate := u.privateSongbooks.flatMap fun songbook =>
    (songbook.songbookSongs.getD []).filter fun ss =>
      match ss.song with
      | some s => s.id == song.id && mapHas copyMap s.id
      | none => false
  let updateTransactions :=
    prepareSongbookEntryUpdates songbookSongsToUpdate copyMap
  (r.transactions ++ updateTransactions, r.notifications, r.transactions)

/-- One iteration of the `affectedUsers` loop of `handleSongRemovedFromGroup`:
push the user's transactions, set the user's notifications in the map, record
the user's committed writes. -/
def removeStep (s : Song) (acc : RemoveResult) (u : AffectedUser) :
    RemoveResult :=
  let p := processAffectedUser s u
  ⟨acc.transactions ++ p.1, mapSet acc.userNotifications u.userId p.2.1,
   acc.committed ++ p.2.2⟩

/-- `handleSongRemovedFromGroup` from group-management.js. -/
def handleSongRemovedFromGroup (shareId groupId : String)
    (affectedUsers : Option (List AffectedUser)) (song : Option Song) :
    RemoveResult :=
  match song, affectedUsers with
  | some s, some users =>
    if shareId == "" || groupId == "" || users.isEmpty then ⟨[], [], []⟩
    else
      let acc := users.foldl (removeStep s) ⟨[], [], []⟩
      ⟨acc.transactions ++ [removeSongFromGroup shareId], acc.userNotifications,
       acc.committed ++ [removeSongFromGroup shareId]⟩
  | _, _ => ⟨[], [], []⟩

/-- The singular message of `createCopiedSongsNotifications`. -/
def singularCopiedMessage : String :=
  "A song from your private songbook has been saved to your personal library."

/-- The suffix of the plural message of `createCopiedSongsNotifications`. -/
def pluralCopiedSuffix : String :=
  " songs from your private songbook have been saved to your personal library."

/-- The message built by `createCopiedSongsNotifications` for one spec
(`notif.count === 1` chooses the singular form; the template literal converts
the count with decimal `toString`, embedded as `Nat.repr`). -/
def copiedSongsMessage (count : Nat) : String :=
  if count == 1 then singularCopiedMessage
  else Nat.repr count ++ pluralCopiedSuffix

/-- `createCopiedSongsNotifications` from src/utils/notifications.js: the
notification rows written (in one `db.transact`) for the given specs.
`songbookId || null` is the identity under the `""` encoding and
`count || 1` maps `0` to `1`. -/
def createCopiedSongsNotifications (notifications : List NotificationSpec) :
    List NotificationRecord :=
  notifications.map fun notif =>
    { userId := notif.userId
      type := "songs_copied"
      message := copiedSongsMessage notif.count
      songbookId := notif.songbookId
      count := if notif.count == 0 then 1 else notif.count
      read := false }

/-- Whether a mutation is an entry-repoint builder. -/
def Mutation.isEntryUpdate : Mutation → Bool
  | .updateEntryM _ _ => true
  | _ => false

/-- Whether a mutation creates a new song. -/
def Mutation.isCreateSong : Mutation → Bool
  | .createSongM _ => true
  | _ => false

/-- Whether a mutation creates a copy of the song with id `originalId`. -/
def Mutation.isCopyOf (originalId : String) : Mutation → Bool
  | .createSongM f => f.parentSongId == originalId
  | _ => false

/-- Whether a mutation deletes a group membership. -/
def Mutation.isDeleteMembership : Mutation → Bool
  | .deleteMembershipM _ => true
  | _ => false

/-- Bool-level form of the data invariant that a songbook entry's denormalized
`songId` matches its resolved song's id. -/
def entryConsistentB (ss : SongbookSong) : Bool :=
  match ss.song with
  | some s => s.id == ss.songId
  | none => true

/-- First-match lookup in an ordered association list of counters (the list
representation of the `songbookAffectedCount` map; its keys are unique, so
first match is the match). -/
def lookupCount : List (String × Nat) → String → Nat
  | [], _ => 0
  | p :: rest, k => if p.1 == k then p.2 else lookupCount rest k

/-- The conclusion of claim C5 for one invocation: with an existing copy of
`s` present, the code resolves `c₀` (the last matching element, as the JS
`Map` does), emits no copy-creation for `s`, marks every occurrence of `s`
as already existed with `c₀.id` as the resolved copy id, resolves every
repoint lookup for `s` to `c₀.id`, and the leave-workflow plan built on the
same data contains no copy-creation for `s` either. -/
def C5Conclusion (userId : String) (privateSongbooks : List Songbook)
    (originalSongs existingCopies : List Song) (s : Song) : Prop :=
  ∃ c₀, lookupExistingCopy existingCopies s.id = some c₀ ∧
    c₀ ∈ existingCopies ∧ c₀.parentSongId = s.id ∧
    (∀ m ∈ (copySongsForPrivateSongbooks userId privateSongbooks originalSongs
        existingCopies).transactions, Mutation.isCopyOf s.id m = false) ∧
    (∀ cs ∈ (copySongsForPrivateSongbooks userId privateSongbooks originalSongs
        existingCopies).copiedSongs, cs.originalSongId = s.id →
      cs.alreadyExisted = true ∧ cs.copySongId = c₀.id) ∧
    (∀ v, mapGet (copyMapOf (copySongsForPrivateSongbooks userId
          privateSongbooks originalSongs existingCopies).copiedSongs) s.id =
        some v → v = c₀.id) ∧
    (∀ groupId membershipId groupSongs,
      ∀ m ∈ (handleUserLeavingGroup userId groupId membershipId
          (some privateSongbooks) (some groupSongs)
          existingCopies).transactions, Mutation.isCopyOf s.id m = false)

/-- The per-invocation notification conclusion of claim C7: every emitted
notification spec has type "songs_copied", the invoking user's id, and count
equal to the number of scanned occurrences in its songbook (necessarily
positive); songbook ids are not repeated; and every songbook with at least
one scanned occurrence gets a notification (for a truthy userId). -/
def C7PlanProp (userId : String) (privateSongbooks : List Songbook)
    (originalSongs existingCopies : List Song) : Prop :=
  (∀ n ∈ (copySongsForPrivateSongbooks userId privateSongbooks originalSongs
      existingCopies).notifications,
    n.type = "songs_copied" ∧ n.userId = userId ∧
      n.count = (findSongsToCopyForPrivateSongbooks privateSongbooks
          (originalSongs.map fun s => s.id)).countP
        (fun t => t.songbookId == n.songbookId) ∧ 0 < n.count) ∧
  ((copySongsForPrivateSongbooks userId privateSongbooks originalSongs
      existingCopies).notifications.map fun n => n.songbookId).Nodup ∧
  (∀ sbId, userId ≠ "" →
    0 < (findSongsToCopyForPrivateSongbooks privateSongbooks
        (originalSongs.map fun s => s.id)).countP
      (fun t => t.songbookId == sbId) →
    ∃ n ∈ (copySongsForPrivateSongbooks userId privateSongbooks originalSongs
        existingCopies).notifications, n.songbookId = sbId)

/-! ### Concrete data used by counterexamples and witnesses -/

/-- Scenario A's song S ("Blue Moon", shared via group g1). -/
def songS : Song := ⟨"s1", "Blue Moon", "", "Fly me to the moon", "[]", ""⟩

/-- Scenario A's single private-songbook entry referencing S. -/
def scenarioAEntry : SongbookSong := ⟨"e1", "s1", some songS⟩

/-- Scenario A's private songbook "Camp 2024". -/
def camp2024 : Songbook := ⟨"sb1", "private", some [scenarioAEntry]⟩

/-- Scenario A's invocation: user A leaves group g1, membership m1,
one private songbook with one entry referencing S, no existing copies. -/
def scenarioAPlan : LeaveResult :=
  handleUserLeavingGroup "userA" "g1" "m1" (some [camp2024])
    (some [⟨some songS⟩]) []

/-- A song whose title, artist and chords are not in the normalized form
`createSong` writes (padded title/artist, null chords). -/
def paddedSong : Song := ⟨"s2", " Blue Moon ", " A ", "verse one", "", ""⟩

/-- A private songbook of user B with two entries referencing the same
song S. -/
def doubleEntrySongbook : Songbook :=
  ⟨"sb2", "private", some [⟨"e1", "s1", some songS⟩, ⟨"e2", "s1", some songS⟩]⟩

/-- A copy of S owned by user A (as produced by a previous invocation and
handed back in `existingCopies`). -/
def copyC1 : Song := ⟨"c1", "Blue Moon", "", "Fly me to the moon", "[]", "s1"⟩

/-! ### Structural lemmas about the embedded functions -/

theorem copyLoop_snd_mem {userId : String} {existingCopies : List Song} :
    ∀ {ts : List ScanTuple} {m : Mutation}, m ∈ (copyLoop userId existingCopies ts).2 →
      ∃ t ∈ ts, lookupExistingCopy existingCopies t.songId = none ∧
        m = copySongForUser t.originalSong userId := by
  intro ts
  induction ts with
  | nil => intro m hm; simp [copyLoop] at hm
  | cons t rest ih =>
    intro m hm
    rw [copyLoop] at hm
    cases h : lookupExistingCopy existingCopies t.songId with
    | some c =>
      rw [h] at hm
      obtain ⟨t', ht', h1, h2⟩ := ih hm
      exact ⟨t', List.mem_cons_of_mem _ ht', h1, h2⟩
    | none =>
      rw [h] at hm
      rcases List.mem_cons.mp hm with hm | hm
      · exact ⟨t, List.mem_cons_self _ _, h, hm⟩
      · obtain ⟨t', ht', h1, h2⟩ := ih hm
        exact ⟨t', List.mem_cons_of_mem _ ht', h1, h2⟩

theorem copySongs_trans_mem {userId : String} {privateSongbooks : List Songbook}
    {originalSongs existingCopies : List Song} {m : Mutation}
    (hm : m ∈ (copySongsForPrivateSongbooks userId privateSongbooks
        originalSongs existingCopies).transactions) :
    ∃ t ∈ findSongsToCopyForPrivateSongbooks privateSongbooks
        (originalSongs.map fun s => s.id),
      lookupExistingCopy existingCopies t.songId = none ∧
        m = copySongForUser t.originalSong userId := by
  simp only [copySongsForPrivateSongbooks] at hm
  split at hm
  · simp at hm
  · split at hm
    · simp at hm
    · exact copyLoop_snd_mem hm

theorem prepare_mem {songbookSongs : List SongbookSong}
    {copyMap : List (String × String)} {m : Mutation}
    (hm : m ∈ prepareSongbookEntryUpdates songbookSongs copyMap) :
    ∃ ss ∈ songbookSongs, ∃ v, mapGet copyMap ss.songId = some v ∧
      v ≠ "" ∧ ss.id ≠ "" ∧ m = Mutation.updateEntryM ss.id v := by
  unfold prepareSongbookEntryUpdates at hm
  rw [List.mem_filterMap] at hm
  obtain ⟨ss, hss, heq⟩ := hm
  cases h : mapGet copyMap ss.songId with
  | none => simp only [h] at heq; exact absurd heq (by simp)
  | some v =>
    simp only [h] at heq
    split at heq
    · next hcond =>
      injection heq with heq
      simp only [Bool.and_eq_true, ne_eq, decide_eq_true_eq] at hcond
      exact ⟨ss, hss, v, h, hcond.1, hcond.2, heq.symm⟩
    · exact absurd heq (by simp)

theorem copySongForUser_isCreateSong (o : Song) (u : String) :
    (copySongForUser o u).isCreateSong = true := rfl

theorem copySongs_trans_create {userId : String} {privateSongbooks : List Songbook}
    {originalSongs existingCopies : List Song} :
    ∀ m ∈ (copySongsForPrivateSongbooks userId privateSongbooks
        originalSongs existingCopies).transactions, m.isCreateSong = true := by
  intro m hm
  obtain ⟨t, _, _, rfl⟩ := copySongs_trans_mem hm
  rfl

theorem prepare_isUpdate {songbookSongs : List SongbookSong}
    {copyMap : List (String × String)} :
    ∀ m ∈ prepareSongbookEntryUpdates songbookSongs copyMap,
      m.isEntryUpdate = true := by
  intro m hm
  obtain ⟨ss, _, v, _, _, _, rfl⟩ := prepare_mem hm
  rfl

theorem removeFold_trans (s : Song) :
    ∀ (users : List AffectedUser) (acc : RemoveResult),
      (users.foldl (removeStep s) acc).transactions =
        acc.transactions ++ users.flatMap fun u => (processAffectedUser s u).1 := by
  intro users
  induction users with
  | nil => intro acc; simp
  | cons u rest ih =>
    intro acc
    rw [List.foldl_cons, ih, List.flatMap_cons]
    simp [removeStep, List.append_assoc]

theorem removeFold_committed (s : Song) :
    ∀ (users : List AffectedUser) (acc : RemoveResult),
      (users.foldl (removeStep s) acc).committed =
        acc.committed ++ users.flatMap fun u => (processAffectedUser s u).2.2 := by
  intro users
  induction users with
  | nil => intro acc; simp
  | cons u rest ih =>
    intro acc
    rw [List.foldl_cons, ih, List.flatMap_cons]
    simp [removeStep, List.append_assoc]

theorem process_trans_filter (s : Song) (u : AffectedUser) :
    ((processAffectedUser s u).1).filter (fun m => !m.isEntryUpdate) =
      (processAffectedUser s u).2.2 := by
  unfold processAffectedUser
  rw [List.filter_append]
  rw [List.filter_eq_self.mpr fun m hm => by
    obtain ⟨t, _, _, rfl⟩ := copySongs_trans_mem hm
    rfl]
  rw [List.filter_eq_nil_iff.mpr fun m hm => by
    simp [prepare_isUpdate m hm]]
  simp

theorem filter_non_update_split (copyTx upd del : List Mutation)
    (hc : ∀ m ∈ copyTx, m.isCreateSong = true)
    (hu : ∀ m ∈ upd, m.isEntryUpdate = true)
    (hd : ∀ m ∈ del, m.isEntryUpdate = false) :
    (copyTx ++ upd ++ del).filter (fun m => !m.isEntryUpdate) =
      copyTx ++ del := by
  rw [List.filter_append, List.filter_append]
  rw [List.filter_eq_self.mpr fun m hm => by
    have := hc m hm
    cases m <;> simp_all [Mutation.isCreateSong, Mutation.isEntryUpdate]]
  rw [List.filter_eq_nil_iff.mpr fun m hm => by simp [hu m hm]]
  rw [List.filter_eq_self.mpr fun m hm => by simp [hd m hm]]
  simp

/-! ### Claims -/

/-- C1, refuted at a concrete input: at the Scenario-A invocation of
`handleUserLeavingGroup`, constructing the returned plan is not free of
store writes — the copy-creation (`createSong`) and the membership deletion
(`deleteGroupMembership`) each call `db.transact` while the plan is being
built, so the effect log of the call is nonempty. -/
theorem c1_counterexample : scenarioAPlan.committed ≠ [] := by decide

/-- C1 (amended): for every invocation of either entry point, the writes
committed against the store during plan construction are exactly the
non-entry-repoint mutations of the returned plan: every copy-creation and
the membership/share deletion are committed immediately (each is a
`db.transact` call), while entry-repoint mutations are only pending builders
and notification specs are returned as plain data. -/
theorem c1_amended_commit_split :
    (∀ userId groupId membershipId privateSongbooks groupSongs existingCopies,
      (handleUserLeavingGroup userId groupId membershipId privateSongbooks
          groupSongs existingCopies).committed =
        (handleUserLeavingGroup userId groupId membershipId privateSongbooks
            groupSongs existingCopies).transactions.filter
          (fun m => !m.isEntryUpdate)) ∧
    (∀ shareId groupId affectedUsers song,
      (handleSongRemovedFromGroup shareId groupId affectedUsers song).committed =
        (handleSongRemovedFromGroup shareId groupId affectedUsers
            song).transactions.filter (fun m => !m.isEntryUpdate)) := by
  constructor
  · intro userId groupId membershipId privateSongbooks groupSongs existingCopies
    simp only [handleUserLeavingGroup]
    split
    · rfl
    · split
      · split <;> simp [deleteGroupMembership, Mutation.isEntryUpdate]
      · dsimp only
        refine (filter_non_update_split _ _ _ ?_ ?_ ?_).symm
        · exact copySongs_trans_create
        · exact prepare_isUpdate
        · intro m hm
          split at hm
          · simp only [List.mem_singleton] at hm
            subst hm; rfl
          · simp at hm
  · intro shareId groupId affectedUsers song
    match song, affectedUsers with
    | none, none => rfl
    | none, some us => rfl
    | some s, none => rfl
    | some s, some users =>
      simp only [handleSongRemovedFromGroup]
      split
      · rfl
      · rw [removeFold_trans, removeFold_committed]
        dsimp only
        simp only [List.nil_append]
        rw [List.filter_append, List.filter_flatMap]
        simp only [process_trans_filter]
        simp [removeSongFromGroup, deleteSongShare, Mutation.isEntryUpdate]

/-- C2: the claim is right and the code is wrong.  The per-occurrence loop of
`copySongsForPrivateSongbooks` creates one copy per occurrence, never
deduplicating within the invocation: with one affected member whose single
private songbook holds two entries referencing the removed song (and no
existing copy), the admin-removal plan contains two copy-creation mutations
for that one (user, originalSongId) pair — N×M, not ≤ N. -/
theorem c2_duplicate_copies_eval :
    ((handleSongRemovedFromGroup "sh1" "g1"
        (some [⟨"userB", [doubleEntrySongbook], []⟩])
        (some songS)).transactions.countP (Mutation.isCopyOf "s1")) = 2 := by
  decide

/-- C3, refuted at the Scenario-A input itself: the returned plan contains no
entry-repoint mutation at all (the fresh copy's id is unknown at plan time,
so the `copySongId` of the copied-song record is null and the repoint map is
empty), while the claim requires exactly one. -/
theorem c3_counterexample :
    ¬ (scenarioAPlan.transactions.countP Mutation.isEntryUpdate = 1) := by
  decide

/-- C3 (amended): for the Scenario-A input the plan consists of exactly one
copy-creation mutation (owner "userA", parentSongId "s1", title and lyrics
identical to S), zero entry-repoint mutations (fresh copies are left for the
caller to resolve), exactly one notification (songbook "sb1", count 1, type
"songs_copied") and exactly one membership-deletion; the copy-creation and
the deletion are moreover the writes committed during construction. -/
theorem c3_scenario_a_plan :
    scenarioAPlan =
      ⟨[Mutation.createSongM
          ⟨"Blue Moon", "", "Fly me to the moon", "[]", "userA", "s1"⟩,
        Mutation.deleteMembershipM "m1"],
       [⟨"songs_copied", "sb1", 1, "userA"⟩],
       [Mutation.createSongM
          ⟨"Blue Moon", "", "Fly me to the moon", "[]", "userA", "s1"⟩,
        Mutation.deleteMembershipM "m1"]⟩ := by
  decide

/-- C4, refuted at a concrete input: with a valid shareId, groupId and song
but an empty `affectedUsers` list, `handleSongRemovedFromGroup` trips its
missing-input guard and returns an empty plan — the share-deletion mutation
is not emitted, contradicting "exactly one mutation, the share-deletion". -/
theorem c4_counterexample :
    (handleSongRemovedFromGroup "sh1" "g1" (some []) (some songS)).transactions
        = [] ∧
      (handleSongRemovedFromGroup "sh1" "g1" (some [])
          (some songS)).transactions ≠ [removeSongFromGroup "sh1"] := by
  decide

/-- C4 (amended): for every invocation of `handleSongRemovedFromGroup` with
an empty `affectedUsers` list, the guard returns the empty plan: no mutations
at all (in particular no share-deletion), no notifications, and nothing
committed. -/
theorem c4_empty_affected_users :
    ∀ shareId groupId song,
      handleSongRemovedFromGroup shareId groupId (some []) song =
        ⟨[], [], []⟩ := by
  intro shareId groupId song
  cases song <;> simp [handleSongRemovedFromGroup]

/-- C6, refuted at a concrete input: `createSong` trims the title and artist
and defaults empty chords to "[]", so a song whose title has surrounding
whitespace is not duplicated character-for-character — the emitted
copy-creation's title, artist and chords all differ from the original's. -/
theorem c6_counterexample :
    copySongForUser paddedSong "u1" =
        Mutation.createSongM ⟨"Blue Moon", "A", "verse one", "[]", "u1", "s2"⟩ ∧
      "Blue Moon" ≠ paddedSong.title ∧ "A" ≠ paddedSong.artist ∧
      "[]" ≠ paddedSong.chords := by
  decide

/-- C6 (amended): for every occurrence needing a fresh copy, the emitted
copy-creation mutation has owner (`createdBy`) equal to the invoking userId,
`parentSongId` equal to the original song's id, lyrics duplicated verbatim,
title and artist duplicated up to trimming, and chords duplicated verbatim
unless null/whitespace-only, in which case "[]" is written. -/
theorem c6_copy_fields :
    ∀ (originalSong : Song) (userId : String),
      copySongForUser originalSong userId =
        Mutation.createSongM
          { title := jsTrim originalSong.title
            artist := jsTrim originalSong.artist
            lyrics := originalSong.lyrics
            chords := if jsTrim originalSong.chords == "" then "[]"
              else originalSong.chords
            createdBy := userId
            parentSongId := originalSong.id } := by
  intro o userId
  unfold copySongForUser createSong
  have hartist : jsOr o.artist "" = o.artist := by
    unfold jsOr
    split
    · next h => exact (beq_iff_eq.mp h).symm
    · rfl
  rw [hartist]
  by_cases hc : o.chords = ""
  · rw [hc]
    dsimp only
    have h1 : (jsTrim (jsOr "" "[]") == "") = false := by decide
    have h2 : (jsTrim "" == "") = true := by decide
    rw [h1, h2]
    simp [jsOr]
  · have : jsOr o.chords "[]" = o.chords := by
      unfold jsOr
      rw [if_neg (by simpa using hc)]
    rw [this]

/-- C8: for every invocation of `handleUserLeavingGroup` with empty
`groupSongs` (and truthy userId, groupId, membershipId, non-null
privateSongbooks), the short-circuit returns a plan holding exactly the
membership-deletion mutation and nothing else — no copies, repoints or
notifications — for every content of the private songbooks, so no scan
result can influence the plan. -/
theorem c8_empty_group_songs :
    ∀ userId groupId membershipId privateSongbooks existingCopies,
      userId ≠ "" → groupId ≠ "" → membershipId ≠ "" →
      handleUserLeavingGroup userId groupId membershipId
          (some privateSongbooks) (some []) existingCopies =
        ⟨[deleteGroupMembership membershipId], [],
         [deleteGroupMembership membershipId]⟩ := by
  intro userId groupId membershipId privateSongbooks existingCopies hu hg hm
  simp [handleUserLeavingGroup, hu, hg, hm]

/-- Witness for C8 at a concrete input. -/
theorem c8_witness :
    handleUserLeavingGroup "userA" "g1" "m1" (some [camp2024]) (some []) [] =
      ⟨[deleteGroupMembership "m1"], [], [deleteGroupMembership "m1"]⟩ :=
  c8_empty_group_songs "userA" "g1" "m1" [camp2024] [] (by decide) (by decide)
    (by decide)

/-- C10: with a null membershipId (encoded "") and valid remaining inputs,
`handleUserLeavingGroup` raises nothing and returns the otherwise-complete
plan with no membership-deletion mutation at all: the plan with a truthy
membershipId is exactly the null-membershipId plan with the deletion
appended, and the notifications coincide. -/
theorem c10_null_membership :
    ∀ userId groupId privateSongbooks groupSongs existingCopies membershipId,
      userId ≠ "" → groupId ≠ "" → membershipId ≠ "" →
      (∀ m ∈ (handleUserLeavingGroup userId groupId "" (some privateSongbooks)
          (some groupSongs) existingCopies).transactions,
        m.isDeleteMembership = false) ∧
      (handleUserLeavingGroup userId groupId membershipId
          (some privateSongbooks) (some groupSongs) existingCopies).transactions =
        (handleUserLeavingGroup userId groupId "" (some privateSongbooks)
            (some groupSongs) existingCopies).transactions ++
          [deleteGroupMembership membershipId] ∧
      (handleUserLeavingGroup userId groupId membershipId
          (some privateSongbooks) (some groupSongs) existingCopies).notifications =
        (handleUserLeavingGroup userId groupId "" (some privateSongbooks)
            (some groupSongs) existingCopies).notifications := by
  intro userId groupId privateSongbooks groupSongs existingCopies membershipId
    hu hg hm
  have hub : (userId == "") = false := beq_eq_false_iff_ne.mpr hu
  have hgb : (groupId == "") = false := beq_eq_false_iff_ne.mpr hg
  simp only [handleUserLeavingGroup, hub, hgb, Option.isNone_some,
    Bool.false_or, Bool.or_false, Bool.false_eq_true, if_false, Option.getD_some]
  split
  · simp [hm]
  · dsimp only
    have h0 : ¬("" : String) ≠ "" := by simp
    simp only [if_pos hm, if_neg h0]
    refine ⟨?_, ?_, ?_⟩
    · intro m hm'
      simp only [List.append_nil] at hm'
      rcases List.mem_append.mp hm' with h | h
      · obtain ⟨t, _, _, rfl⟩ := copySongs_trans_mem h
        rfl
      · obtain ⟨ss, _, v, _, _, _, rfl⟩ := prepare_mem h
        rfl
    · simp
    · trivial

/-- Witness for C10 at a concrete input. -/
theorem c10_witness :
    (∀ m ∈ (handleUserLeavingGroup "userA" "g1" "" (some [camp2024])
        (some [⟨some songS⟩]) []).transactions, m.isDeleteMembership = false) ∧
      (handleUserLeavingGroup "userA" "g1" "m1" (some [camp2024])
          (some [⟨some songS⟩]) []).transactions =
        (handleUserLeavingGroup "userA" "g1" "" (some [camp2024])
            (some [⟨some songS⟩]) []).transactions ++
          [deleteGroupMembership "m1"] ∧
      (handleUserLeavingGroup "userA" "g1" "m1" (some [camp2024])
          (some [⟨some songS⟩]) []).notifications =
        (handleUserLeavingGroup "userA" "g1" "" (some [camp2024])
            (some [⟨some songS⟩]) []).notifications :=
  c10_null_membership "userA" "g1" [camp2024] [⟨some songS⟩] [] "m1"
    (by decide) (by decide) (by decide)

/-- C9: in every plan generated by either entry point, every entry-repoint
mutation targets an entry of one of the songbooks passed as that user's
`privateSongbooks`; under the callers' discipline that those are all
private-type songbooks, no mutation in the plan targets an entry of a
group-type songbook (copy-creation and deletion mutations target no entries
at all, by the shape of `Mutation`). -/
theorem c9_private_only :
    (∀ userId groupId membershipId privateSongbooks groupSongs existingCopies
        entryId newSongId,
      (∀ sb ∈ privateSongbooks, sb.type = "private") →
      Mutation.updateEntryM entryId newSongId ∈
        (handleUserLeavingGroup userId groupId membershipId
            (some privateSongbooks) groupSongs existingCopies).transactions →
      ∃ sb ∈ privateSongbooks, sb.type = "private" ∧
        ∃ ss ∈ sb.songbookSongs.getD [], ss.id = entryId) ∧
    (∀ shareId groupId affectedUsers song entryId newSongId,
      (∀ u ∈ affectedUsers, ∀ sb ∈ u.privateSongbooks, sb.type = "private") →
      Mutation.updateEntryM entryId newSongId ∈
        (handleSongRemovedFromGroup shareId groupId (some affectedUsers)
            song).transactions →
      ∃ u ∈ affectedUsers, ∃ sb ∈ u.privateSongbooks, sb.type = "private" ∧
        ∃ ss ∈ sb.songbookSongs.getD [], ss.id = entryId) := by
  constructor
  · intro userId groupId membershipId privateSongbooks groupSongs existingCopies
      entryId newSongId htype hm
    simp only [handleUserLeavingGroup] at hm
    split at hm
    · simp at hm
    · split at hm
      · split at hm <;> simp_all [deleteGroupMembership]
      · simp only [Option.getD_some] at hm
        rcases List.mem_append.mp hm with h | h
        · rcases List.mem_append.mp h with h | h
          · obtain ⟨t, _, _, heq⟩ := copySongs_trans_mem h
            simp [copySongForUser, createSong] at heq
          · obtain ⟨ss, hss, v, _, _, _, heq⟩ := prepare_mem h
            injection heq with h1 h2
            rw [List.mem_flatMap] at hss
            obtain ⟨sb, hsb, hssf⟩ := hss
            exact ⟨sb, hsb, htype sb hsb, ss, (List.mem_filter.mp hssf).1, h1.symm⟩
        · split at h <;> simp_all [deleteGroupMembership]
  · intro shareId groupId affectedUsers song entryId newSongId htype hm
    cases song with
    | none => simp [handleSongRemovedFromGroup] at hm
    | some s =>
      simp only [handleSongRemovedFromGroup] at hm
      split at hm
      · simp at hm
      · rw [removeFold_trans] at hm
        simp only [List.nil_append] at hm
        rcases List.mem_append.mp hm with h | h
        · rw [List.mem_flatMap] at h
          obtain ⟨u, hu, hmu⟩ := h
          unfold processAffectedUser at hmu
          rcases List.mem_append.mp hmu with h | h
          · obtain ⟨t, _, _, heq⟩ := copySongs_trans_mem h
            simp [copySongForUser, createSong] at heq
          · obtain ⟨ss, hss, v, _, _, _, heq⟩ := prepare_mem h
            injection heq with h1 h2
            rw [List.mem_flatMap] at hss
            obtain ⟨sb, hsb, hssf⟩ := hss
            exact ⟨u, hu, sb, hsb, htype u hu sb hsb, ss,
              (List.mem_filter.mp hssf).1, h1.symm⟩
        · simp [removeSongFromGroup, deleteSongShare] at h

/-- Witness for C9 at a concrete input whose plan holds a repoint (an
existing copy makes the repoint map nonempty). -/
theorem c9_witness :
    ∃ sb ∈ [camp2024], sb.type = "private" ∧
      ∃ ss ∈ sb.songbookSongs.getD [], ss.id = "e1" :=
  c9_private_only.1 "userA" "g1" "m1" [camp2024] (some [⟨some songS⟩]) [copyC1]
    "e1" "c1" (by decide) (by decide)

theorem getLast?_some_mem {α : Type} {l : List α} {a : α}
    (h : l.getLast? = some a) : a ∈ l := by
  have hne : l ≠ [] := by
    intro hnil
    rw [List.getLast?_eq_none_iff.mpr hnil] at h
    exact absurd h (by simp)
  rw [List.getLast?_eq_getLast_of_ne_nil hne] at h
  injection h with h
  exact h ▸ List.getLast_mem hne

theorem lookup_of_exists {existingCopies : List Song} {sid : String}
    (h : ∃ c ∈ existingCopies, c.parentSongId = sid) :
    ∃ c₀, lookupExistingCopy existingCopies sid = some c₀ ∧
      c₀ ∈ existingCopies ∧ c₀.parentSongId = sid := by
  obtain ⟨c, hc, hp⟩ := h
  have hne : (existingCopies.filter fun c => c.parentSongId == sid) ≠ [] := by
    intro hnil
    have hmem : c ∈ existingCopies.filter fun c => c.parentSongId == sid :=
      List.mem_filter.mpr ⟨hc, by simp [hp]⟩
    rw [hnil] at hmem
    exact absurd hmem (by simp)
  obtain ⟨c₀, hc₀⟩ : ∃ c₀,
      (existingCopies.filter fun c => c.parentSongId == sid).getLast? =
        some c₀ := by
    cases hl : (existingCopies.filter fun c => c.parentSongId == sid).getLast?
    · exact absurd (List.getLast?_eq_none_iff.mp hl) hne
    · exact ⟨_, rfl⟩
  have hmem := List.mem_filter.mp (getLast?_some_mem hc₀)
  exact ⟨c₀, hc₀, hmem.1, by simpa using hmem.2⟩

theorem mapGet_some_mem {m : List (String × String)} {k v : String}
    (h : mapGet m k = some v) : ∃ p ∈ m, p.1 = k ∧ p.2 = v := by
  unfold mapGet at h
  cases hl : (m.filter fun p => p.1 == k).getLast? with
  | none => rw [hl] at h; exact absurd h (by simp)
  | some p =>
    rw [hl] at h
    have hmem := List.mem_filter.mp (getLast?_some_mem hl)
    refine ⟨p, hmem.1, by simpa using hmem.2, ?_⟩
    simpa using h

theorem scan_mem {privateSongbooks : List Songbook} {songIds : List String}
    {t : ScanTuple}
    (ht : t ∈ findSongsToCopyForPrivateSongbooks privateSongbooks songIds) :
    ∃ sb ∈ privateSongbooks, ∃ ss ∈ sb.songbookSongs.getD [],
      ss.song = some t.originalSong ∧ t.songId = ss.songId ∧
      t.songbookId = sb.id ∧ t.songbookSongId = ss.id := by
  unfold findSongsToCopyForPrivateSongbooks at ht
  split at ht
  · exact absurd ht (by simp)
  · rw [List.mem_flatMap] at ht
    obtain ⟨sb, hsb, ht⟩ := ht
    rw [List.mem_filterMap] at ht
    obtain ⟨ss, hss, heq⟩ := ht
    cases hsong : ss.song with
    | none => simp only [hsong] at heq; exact absurd heq (by simp)
    | some so =>
      simp only [hsong] at heq
      split at heq
      · injection heq with heq
        refine ⟨sb, hsb, ss, hss, ?_, ?_, ?_, ?_⟩ <;> rw [← heq] <;>
          exact hsong.symm ▸ rfl
      · exact absurd heq (by simp)

theorem scan_consistent {privateSongbooks : List Songbook}
    {songIds : List String} {t : ScanTuple}
    (hwf : ∀ sb ∈ privateSongbooks, ∀ ss ∈ sb.songbookSongs.getD [],
      entryConsistentB ss = true)
    (ht : t ∈ findSongsToCopyForPrivateSongbooks privateSongbooks songIds) :
    t.originalSong.id = t.songId := by
  obtain ⟨sb, hsb, ss, hss, hsong, hsid, _, _⟩ := scan_mem ht
  have := hwf sb hsb ss hss
  unfold entryConsistentB at this
  rw [hsong] at this
  rw [hsid]
  exact beq_iff_eq.mp this

theorem copyLoop_fst_mem {userId : String} {existingCopies : List Song} :
    ∀ {ts : List ScanTuple} {cs : CopiedSong},
      cs ∈ (copyLoop userId existingCopies ts).1 →
      ∃ t ∈ ts, cs.originalSongId = t.songId ∧
        ((∃ c, lookupExistingCopy existingCopies t.songId = some c ∧
            cs.copySongId = c.id ∧ cs.alreadyExisted = true) ∨
          (lookupExistingCopy existingCopies t.songId = none ∧
            cs.copySongId = "" ∧ cs.alreadyExisted = false)) := by
  intro ts
  induction ts with
  | nil => intro cs hcs; simp [copyLoop] at hcs
  | cons t rest ih =>
    intro cs hcs
    rw [copyLoop] at hcs
    cases h : lookupExistingCopy existingCopies t.songId with
    | some c =>
      rw [h] at hcs
      rcases List.mem_cons.mp hcs with hcs | hcs
      · subst hcs
        exact ⟨t, List.mem_cons_self _ _, rfl, Or.inl ⟨c, h, rfl, rfl⟩⟩
      · obtain ⟨t', ht', h1, h2⟩ := ih hcs
        exact ⟨t', List.mem_cons_of_mem _ ht', h1, h2⟩
    | none =>
      rw [h] at hcs
      rcases List.mem_cons.mp hcs with hcs | hcs
      · subst hcs
        exact ⟨t, List.mem_cons_self _ _, rfl, Or.inr ⟨h, rfl, rfl⟩⟩
      · obtain ⟨t', ht', h1, h2⟩ := ih hcs
        exact ⟨t', List.mem_cons_of_mem _ ht', h1, h2⟩

theorem copySongs_copied_mem {userId : String}
    {privateSongbooks : List Songbook} {originalSongs existingCopies : List Song}
    {cs : CopiedSong}
    (hcs : cs ∈ (copySongsForPrivateSongbooks userId privateSongbooks
        originalSongs existingCopies).copiedSongs) :
    ∃ t ∈ findSongsToCopyForPrivateSongbooks privateSongbooks
        (originalSongs.map fun s => s.id),
      cs.originalSongId = t.songId ∧
        ((∃ c, lookupExistingCopy existingCopies t.songId = some c ∧
            cs.copySongId = c.id ∧ cs.alreadyExisted = true) ∨
          (lookupExistingCopy existingCopies t.songId = none ∧
            cs.copySongId = "" ∧ cs.alreadyExisted = false)) := by
  simp only [copySongsForPrivateSongbooks] at hcs
  split at hcs
  · simp at hcs
  · split at hcs
    · simp at hcs
    · exact copyLoop_fst_mem hcs

theorem isCopyOf_copySongForUser (o : Song) (userId sid : String) :
    Mutation.isCopyOf sid (copySongForUser o userId) = (o.id == sid) := rfl

theorem no_copy_of_s {userId : String} {privateSongbooks : List Songbook}
    {originalSongs existingCopies : List Song} {s : Song}
    (hwf : ∀ sb ∈ privateSongbooks, ∀ ss ∈ sb.songbookSongs.getD [],
      entryConsistentB ss = true)
    (hsome : (lookupExistingCopy existingCopies s.id).isSome) :
    ∀ m ∈ (copySongsForPrivateSongbooks userId privateSongbooks originalSongs
        existingCopies).transactions, Mutation.isCopyOf s.id m = false := by
  intro m hm
  obtain ⟨t, ht, hnone, rfl⟩ := copySongs_trans_mem hm
  rw [isCopyOf_copySongForUser, scan_consistent hwf ht]
  rw [beq_eq_false_iff_ne]
  intro heq
  rw [← heq, hnone] at hsome
  exact absurd hsome (by simp)

/-- C5, one clause refuted at a concrete input: the claim's consequent
"invoking the leave-workflow a second time yields only one new copy in
total" fails when the user references the song more than once — the first
invocation already creates one copy per occurrence (two here), the second
(with the first copy in `existingCopies`) creates none, so the total is two,
not one. -/
theorem c5_counterexample :
    ((handleUserLeavingGroup "userB" "g1" "m1" (some [doubleEntrySongbook])
        (some [⟨some songS⟩]) []).transactions.countP
      (Mutation.isCopyOf "s1")) = 2 ∧
    ((handleUserLeavingGroup "userB" "g1" "m1" (some [doubleEntrySongbook])
        (some [⟨some songS⟩]) [copyC1]).transactions.countP
      (Mutation.isCopyOf "s1")) = 0 := by
  decide

/-- C5 (amended): for every user and inaccessible song s, if existingCopies
contains a song whose parentSongId is s.id, then the code resolves the last
such copy c₀; the plan contains no copy-creation for s, every occurrence of
s is marked already-existed with copy id c₀.id, every repoint lookup for s
resolves to c₀.id, and a leave-workflow invocation on the same data emits no
copy-creation mutation for s (so a second invocation with the first
invocation's copy in existingCopies adds no further copies — though the
first invocation may have created one copy per occurrence, cf. C2).
Requires the scanned entries to be consistent (entry.songId matches
entry.song.id). -/
theorem c5_existing_copy_reused :
    ∀ (userId : String) (privateSongbooks : List Songbook)
      (originalSongs existingCopies : List Song) (s : Song),
      (∀ sb ∈ privateSongbooks, ∀ ss ∈ sb.songbookSongs.getD [],
        entryConsistentB ss = true) →
      (∃ c ∈ existingCopies, c.parentSongId = s.id) →
      C5Conclusion userId privateSongbooks originalSongs existingCopies s := by
  intro userId privateSongbooks originalSongs existingCopies s hwf hex
  obtain ⟨c₀, hc₀, hcmem, hcpar⟩ := lookup_of_exists hex
  have hsome : (lookupExistingCopy existingCopies s.id).isSome := by
    rw [hc₀]; rfl
  have hb : ∀ (os : List Song) (cs : CopiedSong),
      cs ∈ (copySongsForPrivateSongbooks userId privateSongbooks os
        existingCopies).copiedSongs → cs.originalSongId = s.id →
      cs.alreadyExisted = true ∧ cs.copySongId = c₀.id := by
    intro os cs hcs horig
    obtain ⟨t, ht, hosid, hcase⟩ := copySongs_copied_mem hcs
    have htsid : t.songId = s.id := by rw [← hosid, horig]
    rcases hcase with ⟨c, hlook, hcid, hae⟩ | ⟨hlook, _, _⟩
    · rw [htsid, hc₀] at hlook
      injection hlook with hlook
      exact ⟨hae, by rw [hcid, hlook]⟩
    · rw [htsid, hc₀] at hlook
      exact absurd hlook (by simp)
  refine ⟨c₀, hc₀, hcmem, hcpar, no_copy_of_s hwf hsome, hb originalSongs,
    ?_, ?_⟩
  · intro v hv
    obtain ⟨p, hp, hpk, hpv⟩ := mapGet_some_mem hv
    unfold copyMapOf at hp
    rw [List.mem_map] at hp
    obtain ⟨cs, hcs, hpq⟩ := hp
    have hcs' := List.mem_filter.mp hcs
    have horig : cs.originalSongId = s.id := by
      rw [← hpk, ← hpq]
    have := (hb originalSongs cs hcs'.1 horig).2
    rw [← hpv, ← hpq]
    exact this
  · intro groupId membershipId groupSongs m hm
    simp only [handleUserLeavingGroup] at hm
    split at hm
    · simp at hm
    · split at hm
      · split at hm <;> simp_all [deleteGroupMembership, Mutation.isCopyOf]
      · simp only [Option.getD_some] at hm
        rcases List.mem_append.mp hm with h | h
        · rcases List.mem_append.mp h with h | h
          · exact no_copy_of_s hwf hsome m h
          · obtain ⟨ss, _, v, _, _, _, rfl⟩ := prepare_mem h
            rfl
        · split at h
          · simp only [List.mem_singleton] at h
            subst h; rfl
          · simp at h

/-- Witness for C5 at a concrete input (user A, song S, an existing copy of
S, one private songbook with a consistent entry referencing S). -/
theorem c5_witness : C5Conclusion "userA" [camp2024] [songS] [copyC1] songS :=
  c5_existing_copy_reused "userA" [camp2024] [songS] [copyC1] songS
    (by decide) (by decide)

theorem bump_lookup (acc : List (String × Nat)) (k k' : String) :
    lookupCount (bumpCount acc k) k' =
      if k' = k then lookupCount acc k' + 1 else lookupCount acc k' := by
  induction acc with
  | nil =>
    simp only [bumpCount, lookupCount]
    by_cases h : k' = k
    · subst h; simp
    · rw [if_neg h, if_neg (by simpa using Ne.symm h)]
  | cons p rest ih =>
    simp only [bumpCount]
    by_cases hpk : p.1 == k
    · rw [if_pos hpk]
      simp only [lookupCount]
      by_cases h : k' = k
      · subst h
        rw [if_pos hpk, if_pos hpk, if_pos rfl]
      · rw [if_neg h]
        by_cases hp' : p.1 == k'
        · exact absurd (beq_iff_eq.mp hpk ▸ beq_iff_eq.mp hp') (Ne.symm h)
        · rw [if_neg (by simpa using hp'), if_neg (by simpa using hp')]
    · rw [if_neg hpk]
      simp only [lookupCount]
      by_cases hp' : p.1 == k'
      · rw [if_pos hp', if_pos hp']
        by_cases h : k' = k
        · exact absurd (h ▸ beq_iff_eq.mp hp') (by simpa using hpk)
        · rw [if_neg h]
      · rw [if_neg hp', if_neg hp', ih]

theorem foldl_bump_lookup :
    ∀ (ts : List ScanTuple) (acc : List (String × Nat)) (k : String),
      lookupCount (ts.foldl (fun a t => bumpCount a t.songbookId) acc) k =
        lookupCount acc k + ts.countP (fun t => t.songbookId == k) := by
  intro ts
  induction ts with
  | nil => intro acc k; simp [List.countP_nil]
  | cons t rest ih =>
    intro acc k
    rw [List.foldl_cons, ih, bump_lookup, List.countP_cons]
    by_cases h : k = t.songbookId
    · rw [if_pos h, if_pos (by simpa using h.symm)]
      omega
    · rw [if_neg h, if_neg (by simpa using fun e => h (beq_iff_eq.mp e).symm)]
      omega

theorem bump_keys_mem (acc : List (String × Nat)) (k x : String) :
    x ∈ (bumpCount acc k).map Prod.fst ↔
      x ∈ acc.map Prod.fst ∨ x = k := by
  induction acc with
  | nil => simp [bumpCount]
  | cons p rest ih =>
    simp only [bumpCount]
    by_cases hpk : p.1 == k
    · rw [if_pos hpk]
      simp only [List.map_cons, List.mem_cons]
      constructor
      · rintro (h | h)
        · exact Or.inl (Or.inl h)
        · exact Or.inl (Or.inr h)
      · rintro ((h | h) | h)
        · exact Or.inl h
        · exact Or.inr h
        · exact Or.inl (h ▸ (beq_iff_eq.mp hpk).symm)
    · rw [if_neg hpk]
      simp only [List.map_cons, List.mem_cons, ih]
      tauto

theorem bump_keys_nodup {acc : List (String × Nat)} (k : String)
    (h : (acc.map Prod.fst).Nodup) : ((bumpCount acc k).map Prod.fst).Nodup := by
  induction acc with
  | nil => simp [bumpCount]
  | cons p rest ih =>
    simp only [bumpCount]
    rw [List.map_cons, List.nodup_cons] at h
    by_cases hpk : p.1 == k
    · rw [if_pos hpk, List.map_cons, List.nodup_cons]
      exact ⟨h.1, h.2⟩
    · rw [if_neg hpk, List.map_cons, List.nodup_cons]
      constructor
      · rw [bump_keys_mem]
        rintro (hx | hx)
        · exact h.1 hx
        · exact absurd hx (by simpa using hpk)
      · exact ih h.2

theorem bump_pos {acc : List (String × Nat)} (k : String)
    (h : ∀ p ∈ acc, 0 < p.2) : ∀ p ∈ bumpCount acc k, 0 < p.2 := by
  induction acc with
  | nil => simp [bumpCount]
  | cons q rest ih =>
    simp only [bumpCount]
    by_cases hqk : q.1 == k
    · rw [if_pos hqk]
      intro p hp
      rcases List.mem_cons.mp hp with hp | hp
      · subst hp; simp
      · exact h p (List.mem_cons_of_mem _ hp)
    · rw [if_neg hqk]
      intro p hp
      rcases List.mem_cons.mp hp with hp | hp
      · exact hp ▸ h q (List.mem_cons_self _ _)
      · exact ih (fun p hp => h p (List.mem_cons_of_mem _ hp)) p hp

theorem lookup_pos_mem {acc : List (String × Nat)} {k : String}
    (h : 0 < lookupCount acc k) : ∃ p ∈ acc, p.1 = k := by
  induction acc with
  | nil => simp [lookupCount] at h
  | cons p rest ih =>
    rw [lookupCount] at h
    by_cases hpk : p.1 == k
    · exact ⟨p, List.mem_cons_self _ _, beq_iff_eq.mp hpk⟩
    · rw [if_neg hpk] at h
      obtain ⟨q, hq, hqk⟩ := ih h
      exact ⟨q, List.mem_cons_of_mem _ hq, hqk⟩

theorem mem_lookup_eq {acc : List (String × Nat)}
    (hnd : (acc.map Prod.fst).Nodup) :
    ∀ p ∈ acc, p.2 = lookupCount acc p.1 := by
  induction acc with
  | nil => simp
  | cons q rest ih =>
    rw [List.map_cons, List.nodup_cons] at hnd
    intro p hp
    rcases List.mem_cons.mp hp with hp | hp
    · subst hp
      rw [lookupCount, if_pos (by simp)]
    · rw [lookupCount]
      by_cases hq : q.1 == p.1
      · exact absurd (beq_iff_eq.mp hq ▸ List.mem_map_of_mem Prod.fst hp)
          hnd.1
      · rw [if_neg hq]
        exact ih hnd.2 p hp

theorem counts_fold_nodup :
    ∀ (ts : List ScanTuple) (acc : List (String × Nat)),
      (acc.map Prod.fst).Nodup →
      ((ts.foldl (fun a t => bumpCount a t.songbookId) acc).map
        Prod.fst).Nodup := by
  intro ts
  induction ts with
  | nil => intro acc h; simpa using h
  | cons t rest ih =>
    intro acc h
    rw [List.foldl_cons]
    exact ih _ (bump_keys_nodup _ h)

theorem counts_fold_pos :
    ∀ (ts : List ScanTuple) (acc : List (String × Nat)),
      (∀ p ∈ acc, 0 < p.2) →
      ∀ p ∈ ts.foldl (fun a t => bumpCount a t.songbookId) acc, 0 < p.2 := by
  intro ts
  induction ts with
  | nil => intro acc h; simpa using h
  | cons t rest ih =>
    intro acc h
    rw [List.foldl_cons]
    exact ih _ (bump_pos _ h)

theorem counts_keys_nodup (ts : List ScanTuple) :
    ((songbookCounts ts).map Prod.fst).Nodup :=
  counts_fold_nodup ts [] (by simp)

theorem counts_lookup (ts : List ScanTuple) (k : String) :
    lookupCount (songbookCounts ts) k =
      ts.countP (fun t => t.songbookId == k) := by
  unfold songbookCounts
  rw [foldl_bump_lookup]
  simp [lookupCount]

theorem counts_mem_eq {ts : List ScanTuple} {p : String × Nat}
    (hp : p ∈ songbookCounts ts) :
    p.2 = ts.countP (fun t => t.songbookId == p.1) := by
  rw [← counts_lookup]
  exact mem_lookup_eq (counts_keys_nodup ts) p hp

theorem counts_mem_pos {ts : List ScanTuple} {p : String × Nat}
    (hp : p ∈ songbookCounts ts) : 0 < p.2 :=
  counts_fold_pos ts [] (by simp) p hp

theorem counts_complete {ts : List ScanTuple} {k : String}
    (h : 0 < ts.countP (fun t => t.songbookId == k)) :
    ∃ p ∈ songbookCounts ts, p.1 = k := by
  apply lookup_pos_mem
  rw [counts_lookup]
  exact h

theorem copySongs_notifications_mem {userId : String}
    {privateSongbooks : List Songbook} {originalSongs existingCopies : List Song}
    {n : NotificationSpec}
    (hn : n ∈ (copySongsForPrivateSongbooks userId privateSongbooks
        originalSongs existingCopies).notifications) :
    ∃ p ∈ songbookCounts (findSongsToCopyForPrivateSongbooks privateSongbooks
        (originalSongs.map fun s => s.id)),
      n = ⟨"songs_copied", p.1, p.2, userId⟩ := by
  simp only [copySongsForPrivateSongbooks] at hn
  split at hn
  · simp at hn
  · split at hn
    · simp at hn
    · rw [List.mem_map] at hn
      obtain ⟨p, hp, hpe⟩ := hn
      exact ⟨p, hp, hpe.symm⟩

theorem count_pos_scan_nonempty {privateSongbooks : List Songbook}
    {songIds : List String} {sbId : String}
    (h : 0 < (findSongsToCopyForPrivateSongbooks privateSongbooks
        songIds).countP (fun t => t.songbookId == sbId)) :
    (findSongsToCopyForPrivateSongbooks privateSongbooks songIds).isEmpty
      = false := by
  cases he : (findSongsToCopyForPrivateSongbooks privateSongbooks
      songIds).isEmpty
  · rfl
  · rw [List.isEmpty_iff.mp he] at h
    simp [List.countP_nil] at h

theorem copySongs_notifications_complete {userId : String}
    {privateSongbooks : List Songbook} {originalSongs existingCopies : List Song}
    {sbId : String} (hu : userId ≠ "")
    (hc : 0 < (findSongsToCopyForPrivateSongbooks privateSongbooks
        (originalSongs.map fun s => s.id)).countP
      (fun t => t.songbookId == sbId)) :
    ∃ n ∈ (copySongsForPrivateSongbooks userId privateSongbooks originalSongs
        existingCopies).notifications, n.songbookId = sbId := by
  have hscan := count_pos_scan_nonempty hc
  have hos : originalSongs.isEmpty = false := by
    cases he : originalSongs.isEmpty
    · rfl
    · rw [List.isEmpty_iff.mp he] at hscan
      simp [findSongsToCopyForPrivateSongbooks] at hscan
  simp only [copySongsForPrivateSongbooks, beq_eq_false_iff_ne.mpr hu, hos,
    Bool.or_self, Bool.false_eq_true, if_false, hscan]
  obtain ⟨p, hp, hpk⟩ := counts_complete hc
  refine ⟨⟨"songs_copied", p.1, p.2, userId⟩, List.mem_map_of_mem _ hp, hpk⟩

theorem one_le_toDigits_length (n : Nat) : 1 ≤ (Nat.toDigits 10 n).length := by
  unfold Nat.toDigits
  simp only [Nat.toDigitsCore]
  split
  · simp
  · rw [Nat.toDigitsCore_lens_eq]
    omega

theorem one_le_repr_length (n : Nat) : 1 ≤ (Nat.repr n).length :=
  one_le_toDigits_length n

/-- C7: the notification part of every plan.  (i) Every notification spec in
a `copySongsForPrivateSongbooks` result carries type "songs_copied", the
invoking user's id, and a positive count equal to the number of scanned
occurrences in its songbook; (ii) no songbook id is repeated; (iii) every
songbook with at least one scanned occurrence (all of which are copied or
reused) receives a notification.  Moreover the notification-creation message
built by `createCopiedSongsNotifications` is the singular sentence exactly
when the count is 1, and otherwise it is the count's decimal numeral
followed by the plural sentence. -/
theorem c7_notifications :
    (∀ userId privateSongbooks originalSongs existingCopies,
      C7PlanProp userId privateSongbooks originalSongs existingCopies) ∧
    (∀ count : Nat,
      copiedSongsMessage count = singularCopiedMessage ↔ count = 1) ∧
    (∀ count : Nat, count ≠ 1 →
      copiedSongsMessage count = Nat.repr count ++ pluralCopiedSuffix) := by
  refine ⟨?_, ?_, ?_⟩
  · intro userId privateSongbooks originalSongs existingCopies
    refine ⟨?_, ?_, ?_⟩
    · intro n hn
      obtain ⟨p, hp, rfl⟩ := copySongs_notifications_mem hn
      exact ⟨rfl, rfl, counts_mem_eq hp, counts_mem_pos hp⟩
    · simp only [copySongsForPrivateSongbooks]
      split
      · simp
      · split
        · simp
        · rw [List.map_map]
          exact counts_keys_nodup _
    · intro sbId hu hc
      exact copySongs_notifications_complete hu hc
  · intro count
    constructor
    · intro h
      by_contra hc
      unfold copiedSongsMessage at h
      rw [if_neg (by simpa using hc)] at h
      have hlen := congrArg String.length h
      rw [String.length_append] at hlen
      have h1 := one_le_repr_length count
      have h2 : pluralCopiedSuffix.length = singularCopiedMessage.length + 1 :=
        by decide
      omega
    · intro h
      subst h
      rfl
  · intro count hc
    unfold copiedSongsMessage
    rw [if_neg (by simpa using hc)]

/-- Witness for C7 at concrete inputs: Scenario A yields the notification
for songbook "sb1", and the plural message for count 2 starts with "2". -/
theorem c7_witness :
    (∃ n ∈ (copySongsForPrivateSongbooks "userA" [camp2024] [songS]
        []).notifications, n.songbookId = "sb1") ∧
      copiedSongsMessage 2 = Nat.repr 2 ++ pluralCopiedSuffix := by
  have h := c7_notifications
  exact ⟨(h.1 "userA" [camp2024] [songS] []).2.2 "sb1" (by decide) (by decide),
    h.2.2 2 (by decide)⟩

end Ukelio
